import Mathlib

/-
Verification of the sabr command-dispatch layer (src/structures/BotClient.ts,
src/structures/Command.ts): a shallow embedding of the command registry, the
permission gate, the positional argument parser and the message dispatcher,
together with theorems settling the specification claims.

Modelling conventions:
- JavaScript strings are Lean `String`s restricted to their ASCII behaviour
  (all string literals occurring in the source are ASCII).
- `content.split(" ")`, `content.substring(n)`, `s.toLowerCase()`,
  `s.startsWith(p)` and `arr.includes(x)` are re-implemented structurally
  (`splitOnSpace`, `jsDropChars`, `jsToLower`, `jsStartsWith`, `jsIncludes`)
  so that concrete runs reduce inside the kernel.
- JavaScript numbers are modelled by `JSNum`: either NaN or an exact rational.
  `Number(s)` is modelled by `toNumber` for the decimal fragment
  (optional whitespace, optional sign, digits with an optional decimal
  fraction); exotic forms (hex, exponents, Infinity) are out of scope, none
  occurs in the claims.
- Thrown JavaScript runtime errors (TypeError from a property access or call
  on undefined) are modelled by `Except JsErr`.
- Side effects (sending a reply, invoking a user-supplied handler or a
  missing-argument callback, a permission `has` query) are recorded as an
  ordered `Event` trace; the user-supplied handlers themselves are external
  collaborators, so invoking one is the final observable event.
-/

namespace Sabr

/-! ## JavaScript primitives -/

abbrev JsErr := String

/-- ASCII lower-casing of one character, the fragment of
`String.prototype.toLowerCase` exercised by the source. -/
def charLower (c : Char) : Char :=
  if 'A' ≤ c ∧ c ≤ 'Z' then Char.ofNat (c.toNat + 32) else c

/-- Models `s.toLowerCase()` on ASCII strings. -/
def jsToLower (s : String) : String :=
  String.mk (s.toList.map charLower)

/-- Models `s.substring(n)` (clamps when `n` exceeds the length, like JavaScript). -/
def jsDropChars (s : String) (n : Nat) : String :=
  String.mk (s.toList.drop n)

/-- Models `s.length` (code units; the sources only use ASCII). -/
def jsLen (s : String) : Nat :=
  s.toList.length

/-- Models `s.startsWith(p)`. -/
def jsStartsWith (s p : String) : Bool :=
  p.toList.isPrefixOf s.toList

/-- Models `arr.includes(x)` for string arrays. -/
def jsIncludes (l : List String) (s : String) : Bool :=
  l.any (fun x => decide (x = s))

/-- Helper for `splitOnSpace`: split a character list at every space,
keeping empty groups exactly as `String.prototype.split(" ")` does. -/
def splitAux : List Char → List (List Char)
  | [] => [[]]
  | c :: cs =>
    match splitAux cs with
    | [] => [[]]
    | grp :: rest => if c = ' ' then [] :: grp :: rest else (c :: grp) :: rest

/-- Models `s.split(" ")`: always returns at least one (possibly empty) token. -/
def splitOnSpace (s : String) : List String :=
  (splitAux s.toList).map String.mk

/-! ## JavaScript numbers (`Number(string)` coercion) -/

/-- A JavaScript number: NaN or an exact rational value. -/
inductive JSNum where
  | nan : JSNum
  | val (q : Rat) : JSNum
  deriving DecidableEq

/-- Numeric value of a digit run. -/
def digitsToNat (cs : List Char) : Nat :=
  cs.foldl (fun a c => a * 10 + (c.toNat - 48)) 0

/-- Unsigned decimal numeral: digits with an optional decimal fraction.
`"5"`, `"5."`, `".5"`, `"5.25"` parse; `"."` and non-digits do not. -/
def parseUnsigned (cs : List Char) : Option Rat :=
  let intPart := cs.takeWhile Char.isDigit
  let rest := cs.dropWhile Char.isDigit
  match rest with
  | [] => if intPart = [] then none else some (digitsToNat intPart : Nat)
  | '.' :: frac =>
    if frac.all Char.isDigit ∧ (intPart ≠ [] ∨ frac ≠ []) then
      some ((digitsToNat intPart : Nat) + (digitsToNat frac : Nat) / ((10 : Rat) ^ frac.length))
    else none
  | _ => none

/-- Whitespace characters trimmed by `Number()` coercion. -/
def isWs (c : Char) : Bool :=
  c = ' ' ∨ c = '\t' ∨ c = '\n' ∨ c = '\r'

/-- Trim leading and trailing whitespace. -/
def jsTrim (cs : List Char) : List Char :=
  ((cs.dropWhile isWs).reverse.dropWhile isWs).reverse

/-- Models `Number(s)` on the decimal fragment: trimmed whitespace, empty string is
`0`, optional sign, otherwise NaN. -/
def stringToNumber (s : String) : JSNum :=
  let cs := jsTrim s.toList
  match cs with
  | [] => .val 0
  | '+' :: rest => match parseUnsigned rest with
    | some q => .val q
    | none => .nan
  | '-' :: rest => match parseUnsigned rest with
    | some q => .val (-q)
    | none => .nan
  | _ => match parseUnsigned cs with
    | some q => .val q
    | none => .nan

/-- Models `Number(x)` where `x` is the possibly-undefined next token:
`Number(undefined)` is NaN. -/
def toNumber : Option String → JSNum
  | none => .nan
  | some s => stringToNumber s

/-- JavaScript truthiness of a number: false exactly for NaN and 0. -/
def numTruthy : JSNum → Bool
  | .nan => false
  | .val q => if q = 0 then false else true

/-! ## Values and argument maps -/

/-- A parsed argument value (`string | number | boolean` in the source). -/
inductive Value where
  | str (s : String) : Value
  | num (n : JSNum) : Value
  | boolV (b : Bool) : Value
  deriving DecidableEq

/-- JavaScript truthiness of a value: `""`, `0`, NaN and `false` are falsy. -/
def Value.truthy : Value → Bool
  | .str s => if s = "" then false else true
  | .num n => numTruthy n
  | .boolV b => b

/-- Truthiness of a possibly-absent value (`undefined` is falsy); this is the
test `if (argument.defaultValue)` performs. -/
def optValueTruthy : Option Value → Bool
  | some v => v.truthy
  | none => false

/-- Truthiness of a possibly-absent boolean (`if (argument.required)`). -/
def optTruthy : Option Bool → Bool
  | some b => b
  | none => false

/-- The argument map built by the parser (a plain JS object keyed by the
argument names, in insertion order). -/
abbrev ArgsMap := List (String × Value)

/-- Exact-key lookup, the behaviour of `Map.get` / JS object indexing. -/
def mapGet {α : Type} : List (String × α) → String → Option α
  | [], _ => none
  | (k, v) :: rest, key => if k = key then some v else mapGet rest key

/-- Models `m.set(k, v)` / `obj[k] = v`: replace an existing binding in place,
otherwise append. -/
def mapSet {α : Type} (m : List (String × α)) (k : String) (v : α) : List (String × α) :=
  if (mapGet m k).isSome then m.map (fun p => if p.1 = k then (k, v) else p)
  else m ++ [(k, v)]

/-- Models `args[argument.name] = value`. -/
def setArg (args : ArgsMap) (k : String) (v : Value) : ArgsMap :=
  mapSet args k v

/-! ## Data model (src/structures/Command.ts) -/

/-- Permission flags are opaque names supplied by the chat platform. -/
abbrev PermFlag := String

/-- The `type` tag of an `Argument` (`"number" | "string" | "boolean" |
"subcommand"`). -/
inductive ArgType where
  | number : ArgType
  | string : ArgType
  | boolean : ArgType
  | subcommand : ArgType
  deriving DecidableEq

/-- The `Argument` interface. `type?`, `required`, `lowercase`, `literals`
and `defaultValue` are optional in TypeScript, hence `Option` here; the
`missing` callback is an external side effect, so only its presence is kept
(its invocation is recorded as an `Event.missingArg`). -/
structure Argument where
  name : String
  type? : Option ArgType := none
  missing : Bool := false
  required : Option Bool := none
  lowercase : Option Bool := none
  literals : Option (List String) := none
  defaultValue : Option Value := none

/-- A member of a guild, reduced to the permission-lookup capability the gate
uses (`member.permissions.has(flag)`). -/
structure Member where
  permissions : List PermFlag

/-- A guild: the bot's own member record may be cached (`guild.me`);
`members.fetch(botId)` resolves `meFetched` (the demand fetch on line 51 of
BotClient.ts is assumed to succeed, as the bot is always a member of a guild
it received a message from). -/
structure Guild where
  me : Option Member
  meFetched : Member

/-- A channel: whether it is a guild text channel, and the
`channel.permissionsFor(member)` capability (total, as provided by the
platform; it receives the raw, possibly-undefined member the source passes). -/
structure Channel where
  guildText : Bool
  permissionsFor : Option Member → List PermFlag

/-- An incoming message, reduced to the fields the dispatcher reads. -/
structure Message where
  authorBot : Bool
  content : String
  channel : Channel
  guild : Option Guild
  member : Option Member

/-- A command definition, the result of `constructCommand`. The `execute`
handler is external (its invocation is recorded as an event keyed by the
command's name), so it is not stored. `subcommands` is the nested
command map. Field order follows the object literal in `constructCommand`. -/
inductive Command where
  | mk (name : String) (aliases : List String) (arguments : List Argument)
      (description : String) (dm : Bool) (modules : List String)
      (permissionLevel : Message → Bool)
      (requiredChannelPermissions : List PermFlag)
      (requiredServerPermissions : List PermFlag)
      (botChannelPermissions : List PermFlag)
      (botServerPermissions : List PermFlag)
      (subcommands : List (String × Command)) : Command

def Command.name : Command → String
  | .mk n _ _ _ _ _ _ _ _ _ _ _ => n

def Command.aliases : Command → List String
  | .mk _ a _ _ _ _ _ _ _ _ _ _ => a

def Command.arguments : Command → List Argument
  | .mk _ _ ar _ _ _ _ _ _ _ _ _ => ar

def Command.description : Command → String
  | .mk _ _ _ d _ _ _ _ _ _ _ _ => d

def Command.dm : Command → Bool
  | .mk _ _ _ _ d _ _ _ _ _ _ _ => d

def Command.modules : Command → List String
  | .mk _ _ _ _ _ m _ _ _ _ _ _ => m

def Command.permissionLevel : Command → (Message → Bool)
  | .mk _ _ _ _ _ _ pl _ _ _ _ _ => pl

def Command.requiredChannelPermissions : Command → List PermFlag
  | .mk _ _ _ _ _ _ _ rc _ _ _ _ => rc

def Command.requiredServerPermissions : Command → List PermFlag
  | .mk _ _ _ _ _ _ _ _ rs _ _ _ => rs

def Command.botChannelPermissions : Command → List PermFlag
  | .mk _ _ _ _ _ _ _ _ _ bc _ _ => bc

def Command.botServerPermissions : Command → List PermFlag
  | .mk _ _ _ _ _ _ _ _ _ _ bs _ => bs

def Command.subcommands : Command → List (String × Command)
  | .mk _ _ _ _ _ _ _ _ _ _ _ sc => sc

/-- The `CommandOptions` interface (the `execute` handler is external and
not stored, see `Command`). -/
structure CommandOptions where
  aliases : Option (List String) := none
  dm : Option Bool := none
  modules : List String := []
  permissionLevel : Option (Message → Bool) := none
  description : Option String := none
  requiredServerPermissions : Option (List PermFlag) := none
  requiredChannelPermissions : Option (List PermFlag) := none
  botServerPermissions : Option (List PermFlag) := none
  botChannelPermissions : Option (List PermFlag) := none
  arguments : Option (List Argument) := none

/-- Models `const defaultPermRequired = () => true;` -/
def defaultPermRequired : Message → Bool := fun _ => true

/-- Models `options.description || "DEFAULT_COMMAND_DESCRIPTION"`: JavaScript `||`
also replaces an explicitly empty string. -/
def jsOrString (o : Option String) (d : String) : String :=
  match o with
  | some s => if s = "" then d else s
  | none => d

/-- Models `constructCommand(name, options)` from Command.ts: normalizes options,
applying the documented defaults, and starts with an empty subcommand map. -/
def constructCommand (name : String) (options : CommandOptions) : Command :=
  .mk (jsToLower name)
    (options.aliases.getD [])
    (options.arguments.getD [])
    (jsOrString options.description "DEFAULT_COMMAND_DESCRIPTION")
    (options.dm.getD false)
    options.modules
    (options.permissionLevel.getD defaultPermRequired)
    (options.requiredChannelPermissions.getD [])
    (options.requiredServerPermissions.getD [])
    (options.botChannelPermissions.getD [])
    (options.botServerPermissions.getD [])
    []

/-! ## Events (observable side effects) -/

/-- The observable side effects of one dispatch. -/
inductive Event where
  | botMentionedReply : Event
  | hasQuery (typ : String) (flag : PermFlag) : Event
  | missingPerm (typ : String) (commandName : String) (flags : List PermFlag) : Event
  | missingArg (argName : String) : Event
  | executed (commandName : String) (args : ArgsMap) : Event
  | executedDM (commandName : String) (parameters : List String) : Event
  deriving DecidableEq

/-! ## Argument parser (BotClient.ts, `parseArguments`) -/

/-- The mutable state of the `parseArguments` loop: the argument object being
built, the remaining token cursor, the side effects so far and the
`missingRequiredArg` flag (which in the source is set exactly at the two
`break` sites, so it doubles as the loop-break signal). -/
structure PState where
  args : ArgsMap
  params : List String
  events : List Event
  missingRequiredArg : Bool
  deriving DecidableEq

/-- The `argument.missing?.(message)` call: an event only when a callback was
supplied. -/
def missingEvent (a : Argument) : List Event :=
  if a.missing then [Event.missingArg a.name] else []

/-- The shared failure tail of the number/boolean/string branches:
`if (argument.required) { missingRequiredArg = true; argument.missing?.(message); break; }`
(an omitted `required` is `undefined`, hence falsy). -/
def requiredFail (a : Argument) (st : PState) : PState :=
  if optTruthy a.required then
    { st with missingRequiredArg := true, events := st.events ++ missingEvent a }
  else st

/-- The shared `else` of the number/boolean/string branches:
`if (argument.defaultValue) args[name] = argument.defaultValue; else` fail.
Note the truthiness test: a falsy default (`false`, `0`, `""`) is not applied. -/
def applyDefaultOrFail (a : Argument) (st : PState) : PState :=
  match a.defaultValue with
  | some v =>
    if v.truthy then { st with args := setArg st.args a.name v }
    else requiredFail a st
  | none => requiredFail a st

/-- The subcommand branch's unconditional failure tail:
`missingRequiredArg = true; argument.missing?.(message); break;`. -/
def subcommandFail (a : Argument) (st : PState) : PState :=
  { st with missingRequiredArg := true, events := st.events ++ missingEvent a }

/-- The subcommand branch's no-match tail: apply a truthy default, else fail
unconditionally (subcommands are always required when expected). -/
def subcommandNoMatch (a : Argument) (st : PState) : PState :=
  match a.defaultValue with
  | some v =>
    if v.truthy then { st with args := setArg st.args a.name v }
    else subcommandFail a st
  | none => subcommandFail a st

/-- The `subcommand` branch. `argument.literals?.find(l => l.toLowerCase()
=== subcommand.toLowerCase())`: when `literals` is absent the optional chain
short-circuits; when it is present and non-empty while the token cursor is
exhausted, the callback evaluates `undefined.toLowerCase()` and throws. -/
def subcommandStep (a : Argument) (st : PState) : Except JsErr PState :=
  match a.literals with
  | none => .ok (subcommandNoMatch a st)
  | some ls =>
    match st.params.head? with
    | none =>
      if ls = [] then .ok (subcommandNoMatch a st)
      else .error "TypeError: Cannot read properties of undefined (reading toLowerCase)"
    | some tok =>
      match ls.find? (fun l => decide (jsToLower l = jsToLower tok)) with
      | some valid =>
        .ok { st with args := setArg st.args a.name (.str valid), params := st.params.tail }
      | none => .ok (subcommandNoMatch a st)

/-- The `number` branch: `const valid = Number(number); if (valid) ...`
(so `"0"` and NaN both take the failure path). -/
def numberStep (a : Argument) (st : PState) : PState :=
  let valid := toNumber st.params.head?
  if numTruthy valid then
    { st with args := setArg st.args a.name (.num valid), params := st.params.tail }
  else applyDefaultOrFail a st

/-- The four accepted boolean tokens (case-sensitive). -/
def boolLits : List String := ["true", "false", "on", "off"]

/-- Models `["true","false","on","off"].includes(boolean)`; `includes(undefined)`
is false. -/
def boolValid (params : List String) : Bool :=
  match params.head? with
  | some t => jsIncludes boolLits t
  | none => false

/-- The `boolean` branch: a valid token records membership in
`["true","on"]` and is consumed. -/
def booleanStep (a : Argument) (st : PState) : PState :=
  match st.params.head? with
  | some t =>
    if jsIncludes boolLits t then
      { st with args := setArg st.args a.name (.boolV (jsIncludes ["true", "on"] t)),
                params := st.params.tail }
    else applyDefaultOrFail a st
  | none => applyDefaultOrFail a st

/-- The `string` branch's `valid` expression:
`argument.literals?.length && text ? (argument.literals.includes(text.toLowerCase()) ? text : undefined) : undefined`.
A value is produced only when literals exist and are non-empty, a truthy
(non-empty) token is present, and its lowercase form is in the literals. -/
def stringValid (a : Argument) (params : List String) : Option String :=
  match a.literals, params.head? with
  | some ls, some t =>
    if ls.length ≠ 0 ∧ t ≠ "" then
      (if jsIncludes ls (jsToLower t) then some t else none)
    else none
  | _, _ => none

/-- The `string` branch: on success the original-cased token is recorded and
consumed. -/
def stringStep (a : Argument) (st : PState) : PState :=
  match stringValid a st.params with
  | some t =>
    { st with args := setArg st.args a.name (.str t), params := st.params.tail }
  | none => applyDefaultOrFail a st

/-- One iteration of the `for (const argument of command.arguments)` loop:
dispatch on `argument.type`. An argument whose `type` is omitted matches no
branch and is skipped. -/
def parseArgStep (a : Argument) (st : PState) : Except JsErr PState :=
  match a.type? with
  | some .subcommand => subcommandStep a st
  | some .number => .ok (numberStep a st)
  | some .boolean => .ok (booleanStep a st)
  | some .string => .ok (stringStep a st)
  | none => .ok st

/-- The parser loop; `missingRequiredArg` is set exactly at the `break`
sites, so it signals the early exit. -/
def parseLoop : List Argument → PState → Except JsErr PState
  | [], st => .ok st
  | a :: rest, st =>
    match parseArgStep a st with
    | .error e => .error e
    | .ok st' => if st'.missingRequiredArg then .ok st' else parseLoop rest st'

/-- Models `parseArguments(message, command, parameters)`: `none` is the falsy
`return false` ("missing required argument") signal, distinguishable from a
successful (possibly empty) argument object. The message argument of the
source only feeds the missing-value callbacks, which are recorded as
events. -/
def parseArguments (command : Command) (parameters : List String) :
    Except JsErr (Option ArgsMap × List Event) :=
  match parseLoop command.arguments
      { args := [], params := parameters, events := [], missingRequiredArg := false } with
  | .error e => .error e
  | .ok st => .ok (if st.missingRequiredArg then none else some st.args, st.events)

/-! ## Client state and tokenization (BotClient.ts) -/

/-- The `BotClient` fields the dispatcher reads: the default prefix string
(`this.prefix`, default `"bot "`), the bot's own user id, and the command
registry (`this.commands`, a `Map` keyed by lowercase names). -/
structure ClientState where
  pfx : String
  userId : String
  commands : List (String × Command)

/-- The default `getPrefix(message)`: returns the configured prefix string
(the overridable per-guild hook is out of scope; the claims are about the
default). -/
def getPfx (client : ClientState) (_message : Message) : String :=
  client.pfx

/-- Models `[this.user!.toString()]` plus the nickname form: the two canonical mention strings
of the bot's user (`User.toString()` renders `<@id>`). -/
def botMentions (client : ClientState) : List String :=
  ["<@" ++ client.userId ++ ">", "<@!" ++ client.userId ++ ">"]

/-- Lines 46–47 of BotClient.ts: the effective prefix is the matched leading
mention or `getPrefix(message)`, and the message is tokenized by removing
`prefix.length` characters unconditionally and splitting on single spaces.
The head is the command-name candidate, the tail the parameters. -/
def messageTokens (client : ClientState) (message : Message) : List String :=
  let mentioned := (botMentions client).find? (fun m => jsStartsWith message.content m)
  let pfx := match mentioned with
    | some m => m
    | none => getPfx client message
  splitOnSpace (jsDropChars message.content (jsLen pfx))

/-! ## Permission gate (BotClient.ts, `commandAllowed`) -/

/-- Models `perms?.has(p)` coerced to a boolean: `undefined` (absent permission
object) is falsy. -/
def permHas (perms : Option (List PermFlag)) (p : PermFlag) : Bool :=
  match perms with
  | some ps => jsIncludes ps p
  | none => false

/-- The `has(perm)` queries one category performs while filtering: one per
required flag when the permission object exists, none when it is absent
(`memberPerms?.has(perm)` short-circuits on `undefined`). -/
def permQueries (typ : String) (req : List PermFlag)
    (perms : Option (List PermFlag)) : List Event :=
  match perms with
  | some _ => req.map (fun p => Event.hasQuery typ p)
  | none => []

/-- The missing flags of one category: `list.filter(perm => !perms.has(perm))`. -/
def permMissing (req : List PermFlag) (perms : Option (List PermFlag)) :
    List PermFlag :=
  req.filter (fun p => !(permHas perms p))

/-- One permission category of `commandAllowed`: when the requirement list is
non-empty, every flag is queried against the permission object and the
missing ones are collected; a non-empty missing list emits the notification
(`missingCommandPermission`) and fails the category. -/
def permCheck (typ : String) (commandName : String) (req : List PermFlag)
    (perms : Option (List PermFlag)) : List Event × Bool :=
  if req.isEmpty then ([], true)
  else if (permMissing req perms).isEmpty then (permQueries typ req perms, true)
  else (permQueries typ req perms ++
    [Event.missingPerm typ commandName (permMissing req perms)], false)

/-- A gate category: its notification key, its requirement list and the
permission object it is checked against (absent when the invoking member is). -/
abbrev GateCat := String × List PermFlag × Option (List PermFlag)

/-- The four categories of the gate, in the order the source checks them:
user-channel, user-server, bot-channel, bot-server. -/
def gateCats (message : Message) (command : Command) (botMember : Member) :
    List GateCat :=
  [("framework/core:USER_CHANNEL_PERM", command.requiredChannelPermissions,
      some (message.channel.permissionsFor message.member)),
   ("framework/core:USER_SERVER_PERM", command.requiredServerPermissions,
      message.member.map Member.permissions),
   ("framework/core:BOT_CHANNEL_PERM", command.botChannelPermissions,
      some (message.channel.permissionsFor (some botMember))),
   ("framework/core:BOT_SERVER_PERM", command.botServerPermissions,
      some botMember.permissions)]

/-- Sequential run of gate categories with early exit on the first failing
one; when all pass, the result is the command's permission-level predicate
(`final`). -/
def gateRun (commandName : String) (final : Bool) : List GateCat → Bool × List Event
  | [] => (final, [])
  | (typ, req, perms) :: rest =>
    let r := permCheck typ commandName req perms
    if r.2 then
      let rr := gateRun commandName final rest
      (rr.1, r.1 ++ rr.2)
    else (false, r.1)

/-- Which JS properties of a constructed command object are functions; the
DM path dispatches subcommands by raw property lookup (`command[subcommand]`)
and calls the result. Calling a non-function own property or an absent
property throws. (Methods inherited from `Object.prototype` are not
modelled; no claim depends on them.) -/
inductive CmdCallable where
  | exec : CmdCallable
  | permLvl : CmdCallable

def commandPropCallable (key : String) : Option CmdCallable :=
  if key = "execute" then some .exec
  else if key = "permissionLevel" then some .permLvl
  else none

/-- Models `handleDM(message)` from BotClient.ts: requires the configured prefix,
silently drops unknown / non-DM / permission-rejected commands; when the
first schema entry is a subcommand it dispatches by property lookup with the
raw remaining tokens, otherwise it calls `execute` with the raw tokens
(no argument parsing). `const [argument] = command.arguments` followed by
`argument.type` throws when the schema is empty. -/
def handleDM (client : ClientState) (message : Message) : Except JsErr (List Event) :=
  if jsStartsWith message.content client.pfx = false then .ok []
  else
    let toks := splitOnSpace (jsDropChars message.content (jsLen client.pfx))
    let commandName := toks.headD ""
    let parameters := toks.tail
    match mapGet client.commands commandName with
    | none => .ok []
    | some command =>
      if command.dm = false then .ok []
      else if command.permissionLevel message = false then .ok []
      else
        match command.arguments with
        | [] => .error "TypeError: Cannot read properties of undefined (reading type)"
        | argument :: _ =>
          if argument.type? = some ArgType.subcommand then
            match parameters with
            | [] => .ok []
            | sub :: rest =>
              if sub = "" then .ok []
              else
                match commandPropCallable sub with
                | some .exec => .ok [Event.executedDM command.name rest]
                | some .permLvl => .ok []
                | none => .error "TypeError: callback is not a function"
          else .ok [Event.executedDM command.name parameters]

/-- Models `commandAllowed(message, command)`: a non-guild channel is delegated to
`handleDM` and reported as not allowed; otherwise the four permission
categories run in order (`message.guild!.me` throws when the guild is
absent, `botMember!.permissions` throws when the bot member is), and when
all pass the result is `command.permissionLevel(message)`. -/
def commandAllowed (client : ClientState) (message : Message) (command : Command) :
    Except JsErr (Bool × List Event) :=
  if message.channel.guildText = false then
    match handleDM client message with
    | .error e => .error e
    | .ok evs => .ok (false, evs)
  else
    match message.guild with
    | none => .error "TypeError: Cannot read properties of null (reading me)"
    | some g =>
      match g.me with
      | none => .error "TypeError: Cannot read properties of null (reading permissions)"
      | some botMember =>
        let memberPerms := message.member.map Member.permissions
        let channelMemberPerms := message.channel.permissionsFor message.member
        let channelBotPerms := message.channel.permissionsFor (some botMember)
        let r1 := permCheck "framework/core:USER_CHANNEL_PERM" command.name
          command.requiredChannelPermissions (some channelMemberPerms)
        if r1.2 then
          let r2 := permCheck "framework/core:USER_SERVER_PERM" command.name
            command.requiredServerPermissions memberPerms
          if r2.2 then
            let r3 := permCheck "framework/core:BOT_CHANNEL_PERM" command.name
              command.botChannelPermissions (some channelBotPerms)
            if r3.2 then
              let r4 := permCheck "framework/core:BOT_SERVER_PERM" command.name
                command.botServerPermissions (some botMember.permissions)
              if r4.2 then
                .ok (command.permissionLevel message, r1.1 ++ r2.1 ++ r3.1 ++ r4.1)
              else .ok (false, r1.1 ++ r2.1 ++ r3.1 ++ r4.1)
            else .ok (false, r1.1 ++ r2.1 ++ r3.1)
          else .ok (false, r1.1 ++ r2.1)
        else .ok (false, r1.1)

/-! ## Dispatcher (BotClient.ts, `commandHandler`) -/

/-- The effect of `if (!message.guild!.me) await message.guild!.members.fetch(...)`:
when the bot's member record is not cached it is resolved on demand. -/
def fetchedGuild (g : Guild) : Guild :=
  match g.me with
  | some _ => g
  | none => { g with me := some g.meFetched }

/-- The message as later steps observe it, after the demand fetch populated
the guild's bot-member record. -/
def guildFetchedMessage (message : Message) (g : Guild) : Message :=
  { message with guild := some (fetchedGuild g) }

/-- Models `args[argument.name]` used as a `Map.get` key: only a string value can
match the string-keyed subcommand map. -/
def argLookupStr (args : ArgsMap) (name : String) : Option String :=
  match mapGet args name with
  | some (Value.str s) => some s
  | _ => none

/-- Models `commandHandler(message)`: the per-message dispatch state machine.
Bot authors are dropped; an exact mention triggers the mention responder;
tokenization removes the effective prefix length; an unknown command name is
a silent no-op; the bot member is demand-fetched (this dereferences
`message.guild!` and throws when the guild is absent); then gate → parser →
either the top-level `execute` or, when `find` locates a subcommand-typed
schema entry, subcommand resolution with a second gate run against the
top-level command. -/
def commandHandler (client : ClientState) (message : Message) :
    Except JsErr (List Event) :=
  if message.authorBot then .ok []
  else if jsIncludes (botMentions client) message.content then
    .ok [Event.botMentionedReply]
  else
    match mapGet client.commands ((messageTokens client message).headD "") with
    | none => .ok []
    | some command =>
      match message.guild with
      | none => .error "TypeError: Cannot read properties of null (reading me)"
      | some g =>
        match commandAllowed client (guildFetchedMessage message g) command with
        | .error e => .error e
        | .ok (allowed, gateEvs) =>
          if allowed = false then .ok gateEvs
          else
            match parseArguments command (messageTokens client message).tail with
            | .error e => .error e
            | .ok (argsOpt, parseEvs) =>
              match argsOpt with
              | none => .ok (gateEvs ++ parseEvs)
              | some args =>
                match command.arguments.find?
                    (fun a => decide (a.type? = some ArgType.subcommand)) with
                | none => .ok (gateEvs ++ parseEvs ++ [Event.executed command.name args])
                | some argDef =>
                  match argLookupStr args argDef.name with
                  | none => .ok (gateEvs ++ parseEvs)
                  | some subName =>
                    match mapGet command.subcommands subName with
                    | none => .ok (gateEvs ++ parseEvs)
                    | some subcommand =>
                      match commandAllowed client (guildFetchedMessage message g) command with
                      | .error e => .error e
                      | .ok (allowed2, gateEvs2) =>
                        if allowed2 = false then .ok (gateEvs ++ parseEvs ++ gateEvs2)
                        else .ok (gateEvs ++ parseEvs ++ gateEvs2 ++
                          [Event.executed subcommand.name args])

/-! ## Registry (BotClient.ts, `createCommand` / `createSubcommand`) -/

/-- Models `createCommand(name, options)`: duplicate detection against the
lowercase key, then storage of the normalized definition under the lowercase
name. -/
def createCommand (commands : List (String × Command)) (name : String)
    (options : CommandOptions) : Except JsErr (List (String × Command)) :=
  if (mapGet commands (jsToLower name)).isSome then
    .error ("Command with the name " ++ name ++ " already exists.")
  else
    .ok (mapSet commands (jsToLower name) (constructCommand name options))

/-- Replace a command's subcommand map (helper for `createSubcommand`). -/
def Command.withSubcommands : Command → List (String × Command) → Command
  | .mk n a ar d dm m pl rc rs bc bs _, sc => .mk n a ar d dm m pl rc rs bc bs sc

/-- Models `createSubcommand(commandName, subcommandName, options)`: unknown parent
and duplicate subcommand both raise; otherwise the normalized subcommand is
stored under the parent's lowercase-keyed subcommand map. -/
def createSubcommand (commands : List (String × Command)) (commandName : String)
    (subcommandName : String) (options : CommandOptions) :
    Except JsErr (List (String × Command)) :=
  match mapGet commands (jsToLower commandName) with
  | none => .error ("To create the " ++ subcommandName ++
      ", you must first create the main " ++ commandName ++ ".")
  | some command =>
    if (mapGet command.subcommands (jsToLower subcommandName)).isSome then
      .error ("The " ++ subcommandName ++ " already exists in the " ++ commandName)
    else
      .ok (mapSet commands (jsToLower commandName)
        (command.withSubcommands
          (mapSet command.subcommands (jsToLower subcommandName)
            (constructCommand subcommandName options))))

/-! ## Gate-trace observations -/

/-- The flags a gate category reports missing. -/
def catMissing (c : GateCat) : List PermFlag :=
  permMissing c.2.1 c.2.2

/-- Whether a gate category passes: an empty requirement list is vacuously
satisfied, otherwise no flag may be missing. -/
def catPasses (c : GateCat) : Bool :=
  c.2.1.isEmpty || (catMissing c).isEmpty

/-- The category label an event belongs to (empty for non-gate events). -/
def eventTyp : Event → String
  | .hasQuery t _ => t
  | .missingPerm t _ _ => t
  | _ => ""

/-- Whether an event is a user-facing missing-permission notification. -/
def isNotif : Event → Bool
  | .missingPerm _ _ _ => true
  | _ => false

/-! ## Concrete configurations used by the claim theorems -/

def memEmpty : Member := { permissions := [] }

def guildCached : Guild := { me := some memEmpty, meFetched := memEmpty }

def chanEmpty : Channel := { guildText := true, permissionsFor := fun _ => [] }

/-- A guild message with the given content, empty permissions everywhere. -/
def guildMsg (content : String) : Message :=
  { authorBot := false, content := content, channel := chanEmpty,
    guild := some guildCached, member := some memEmpty }

/-- A command with the given name, argument schema and subcommand map and no
permission requirements. -/
def plainCommand (name : String) (args : List Argument)
    (subs : List (String × Command)) : Command :=
  .mk name [] args "d" false [] (fun _ => true) [] [] [] [] subs

/-- A client with the default `"bot "` prefix, user id `"1"` and the given
registry. -/
def plainClient (commands : List (String × Command)) : ClientState :=
  { pfx := "bot ", userId := "1", commands := commands }

/- C1: a schema whose FIRST entry is a boolean but whose SECOND entry is a
subcommand, with a registered subcommand `add`. -/
def argFlag : Argument := { name := "flag", type? := some .boolean }
def argSubAdd : Argument :=
  { name := "sub", type? := some .subcommand, literals := some ["add"] }
def subAdd : Command := plainCommand "add" [] []
def cmdC1 : Command := plainCommand "c" [argFlag, argSubAdd] [("add", subAdd)]
def clC1 : ClientState := plainClient [("c", cmdC1)]
def msgC1 : Message := guildMsg "bot c on add"

/- C1 amended witness: a schema with no subcommand entry at all. -/
def cmdP : Command := plainCommand "p" [argFlag] []
def clP : ClientState := plainClient [("p", cmdP)]
def msgP : Message := guildMsg "bot p on"

/- C2 witness: a command whose first category (user-channel) fails. -/
def cmdC2 : Command :=
  .mk "g" [] [] "d" false [] (fun _ => true) ["A"] [] [] [] []
def msgC2 : Message := guildMsg "bot g"

/- C3: a subcommand entry with literals and an exhausted token cursor. -/
def cmdC3 : Command := plainCommand "c" [argSubAdd] []
def clC3 : ClientState := plainClient [("c", cmdC3)]
def msgC3 : Message := guildMsg "bot c"

/- C4: the required `amount` number argument with token `"0"`. -/
def argC4 : Argument :=
  { name := "amount", type? := some .number, missing := true, required := some true }
def cmdC4 : Command := plainCommand "c" [argC4] []

/- C5: the same schema but with the `required` flag omitted. -/
def argC5 : Argument :=
  { name := "amount", type? := some .number, missing := true }
def cmdC5 : Command := plainCommand "c" [argC5] []

/- C7: subcommand entry with literals `["add","remove"]` followed by a
string entry that captures the remaining token `"x"`. -/
def argSub7 : Argument :=
  { name := "sub", type? := some .subcommand, literals := some ["add", "remove"] }
def argRest7 : Argument :=
  { name := "rest", type? := some .string, literals := some ["x"], required := some true }
def cmdC7 : Command := plainCommand "c" [argSub7, argRest7] []

/- C8 counterexample: a string entry whose allow-list contains the empty
string, and an empty-string token. -/
def argC8 : Argument :=
  { name := "s", type? := some .string, literals := some [""], required := some false }
def cmdC8 : Command := plainCommand "c" [argC8] []

/- C8 amended witness: a string entry with allow-list `["add"]` and token
`"Add"`. -/
def argW8 : Argument :=
  { name := "s", type? := some .string, literals := some ["add"] }
def stW8 : PState :=
  { args := [], params := ["Add"], events := [], missingRequiredArg := false }

/- C9 counterexample: a boolean entry with the falsy default `false` and an
invalid token. -/
def argC9 : Argument :=
  { name := "flag", type? := some .boolean, defaultValue := some (.boolV false) }
def cmdC9 : Command := plainCommand "c" [argC9] []

/- C9 amended witness: a number entry with a truthy default and an invalid
token. -/
def argW9 : Argument :=
  { name := "n", type? := some .number, defaultValue := some (.str "dflt") }
def stW9 : PState :=
  { args := [], params := ["zero"], events := [], missingRequiredArg := false }

/- C6 witness: a registry holding `ping`, re-registered as `PING`. -/
def cmdPing : Command := plainCommand "ping" [] []
def registryW : List (String × Command) := [("ping", cmdPing)]
def optsW : CommandOptions := {}

/- C10: client knowing `ping`, and a guild message template. -/
def clPing : ClientState := plainClient [("ping", cmdPing)]
def msgBase : Message := guildMsg "IGNORED"

end Sabr

deriving instance DecidableEq for Except

namespace Sabr

/-! ## Helper lemmas -/

theorem isPrefixOf_self {α : Type} [DecidableEq α] (l : List α) :
    l.isPrefixOf l = true := by
  induction l with
  | nil => rfl
  | cons a as ih => simp [List.isPrefixOf, ih]

theorem jsStartsWith_refl (s : String) : jsStartsWith s s = true :=
  isPrefixOf_self s.toList

theorem jsIncludes_iff_mem (l : List String) (s : String) :
    jsIncludes l s = true ↔ s ∈ l := by
  simp [jsIncludes, List.any_eq_true]

theorem jsIncludes_eq_false_of_no_start (l : List String) (c : String)
    (h : ∀ s ∈ l, jsStartsWith c s = false) : jsIncludes l c = false := by
  cases hinc : jsIncludes l c with
  | false => rfl
  | true =>
    have hc : c ∈ l := (jsIncludes_iff_mem l c).mp hinc
    have := h c hc
    rw [jsStartsWith_refl] at this
    exact absurd this (by simp)

theorem messageTokens_no_mention (client : ClientState) (message : Message)
    (h : ∀ s ∈ botMentions client, jsStartsWith message.content s = false) :
    messageTokens client message =
      splitOnSpace (jsDropChars message.content (jsLen client.pfx)) := by
  unfold messageTokens
  have hf : (botMentions client).find? (fun m => jsStartsWith message.content m) = none := by
    rw [List.find?_eq_none]
    intro x hx
    simp [h x hx]
  rw [hf]
  rfl

theorem mapGet_isSome_iff {α : Type} (l : List (String × α)) (k : String) :
    (mapGet l k).isSome = true ↔ ∃ p ∈ l, p.1 = k := by
  induction l with
  | nil => simp [mapGet]
  | cons hd tl ih =>
    obtain ⟨a, b⟩ := hd
    by_cases h : a = k
    · subst h
      simp [mapGet]
    · simp [mapGet, h, ih]

theorem mapGet_replace {α : Type} (l : List (String × α)) (k : String) (v : α)
    (h : (mapGet l k).isSome = true) :
    mapGet (l.map (fun p => if p.1 = k then (k, v) else p)) k = some v := by
  induction l with
  | nil => simp [mapGet] at h
  | cons hd tl ih =>
    obtain ⟨a, b⟩ := hd
    simp only [List.map_cons]
    by_cases ha : a = k
    · rw [if_pos (ha : (a, b).1 = k)]
      simp [mapGet]
    · rw [if_neg (ha : ¬(a, b).1 = k)]
      simp [mapGet, ha] at h ⊢
      exact ih h

theorem mapGet_append_self {α : Type} (l : List (String × α)) (k : String) (v : α)
    (h : mapGet l k = none) :
    mapGet (l ++ [(k, v)]) k = some v := by
  induction l with
  | nil => simp [mapGet]
  | cons hd tl ih =>
    obtain ⟨a, b⟩ := hd
    by_cases ha : a = k
    · simp [mapGet, ha] at h
    · simp [mapGet, ha] at h ⊢
      exact ih h

theorem mapGet_mapSet_self {α : Type} (l : List (String × α)) (k : String) (v : α) :
    mapGet (mapSet l k v) k = some v := by
  unfold mapSet
  by_cases h : (mapGet l k).isSome = true
  · simp only [h, if_true]
    exact mapGet_replace l k v h
  · have hn : mapGet l k = none := by
      cases hx : mapGet l k with
      | none => rfl
      | some v0 => rw [hx] at h; simp at h
    simp only [hn, Option.isSome_none, Bool.false_eq_true, if_false]
    exact mapGet_append_self l k v hn

/-! ## Closed claim theorems (concrete runs) -/

/-- Claim C1 (counterexample): the claim says that when the schema's FIRST
entry is not of type subcommand the dispatcher invokes the top-level execute
handler and performs no subcommand resolution. For `cmdC1` the first entry
is a boolean, yet the dispatcher (which searches the WHOLE schema with
`find`) resolves and executes the subcommand `add` instead of the top-level
command `c`. -/
theorem C1_counterexample :
    commandHandler clC1 msgC1 =
      .ok [Event.executed "add" [("flag", Value.boolV true), ("sub", Value.str "add")]] ∧
    cmdC1.arguments.head?.map Argument.type? = some (some ArgType.boolean) ∧
    commandHandler clC1 msgC1 ≠
      .ok [Event.executed "c" [("flag", Value.boolV true), ("sub", Value.str "add")]] := by
  refine ⟨rfl, rfl, ?_⟩
  decide

/-- Claim C3 (failing input): a guild message invoking a command whose
subcommand-typed schema entry has a non-empty literal list while the token
cursor is exhausted makes `parseArguments` evaluate
`undefined.toLowerCase()`; the TypeError propagates out of
`commandHandler`, contradicting the claim that all failure paths are
absorbed internally. -/
theorem C3_handler_throws :
    commandHandler clC3 msgC3 =
      .error "TypeError: Cannot read properties of undefined (reading toLowerCase)" := rfl

/-- Claim C4: for schema `[{name:"amount", type:"number", required:true}]`
(no default) and tokens `["0"]`, parsing returns the failure signal (`none`,
the `return false` sentinel, distinguishable from a success map) and the
entry's missing-value callback fires exactly once. -/
theorem C4_zero_token_fails :
    parseArguments cmdC4 ["0"] = .ok (none, [Event.missingArg "amount"]) := rfl

/-- Claim C5 (failing input): with the `required` flag omitted (the
documentation of `Argument.required` says it defaults to true) and an
invalid token, the code succeeds with an empty map and never invokes the
missing-value callback, because `if (argument.required)` treats the omitted
flag as falsy. -/
theorem C5_required_default_ignored :
    parseArguments cmdC5 ["x"] = .ok (some [], []) ∧
    argC5.required = none ∧
    argC5.missing = true := ⟨rfl, rfl, rfl⟩

/-- Claim C7: a subcommand entry with literals `["add","remove"]` and tokens
`["ADD","x"]` matches case-insensitively, records the canonical literal
`"add"` under the entry's name, and consumes exactly one token — the
remaining `["x"]` is available to (and here captured by) the next entry. -/
theorem C7_subcommand_case_insensitive :
    parseArgStep argSub7
      { args := [], params := ["ADD", "x"], events := [], missingRequiredArg := false } =
      .ok { args := [("sub", Value.str "add")], params := ["x"], events := [],
            missingRequiredArg := false } ∧
    parseArguments cmdC7 ["ADD", "x"] =
      .ok (some [("sub", Value.str "add"), ("rest", Value.str "x")], []) := ⟨rfl, rfl⟩

/-- Claim C8 (counterexample): the claim says a string entry captures IFF
the allow-list is non-empty, a token is present and its lowercased form is
in the allow-list. With allow-list `[""]` and the present token `""` all
three conditions hold, yet the code captures nothing (the `&& text`
truthiness test also requires the token to be non-empty). -/
theorem C8_counterexample :
    argC8.literals = some [""] ∧
    ([""] : List String) ≠ [] ∧
    jsIncludes [""] (jsToLower "") = true ∧
    parseArguments cmdC8 [""] = .ok (some [], []) := by
  refine ⟨rfl, by decide, by decide, rfl⟩

/-- Claim C9 (counterexample): the claim says a configured default is
recorded on an invalid token for EVERY default value including `false`.
With default `false` and invalid token `"maybe"`, the truthiness test
`if (argument.defaultValue)` rejects the default and nothing is recorded. -/
theorem C9_counterexample :
    argC9.defaultValue = some (Value.boolV false) ∧
    parseArguments cmdC9 ["maybe"] = .ok (some [], []) := ⟨rfl, rfl⟩

/-! ## C8 (amended): string capture characterization -/

/-- Claim C8 (amended): a string-type entry captures a token iff the entry
declares a non-empty literal allow-list, a NON-EMPTY token is present, and
the lowercased token is in the allow-list (JavaScript truthiness also
rejects the empty-string token); on success the original-cased token is
recorded under the entry's name and the token is consumed; an entry without
literals never captures. -/
theorem C8_string_capture (a : Argument) (st : PState)
    (ht : a.type? = some ArgType.string) :
    (∀ tok, stringValid a st.params = some tok ↔
      (st.params.head? = some tok ∧ tok ≠ "" ∧
        ∃ ls, a.literals = some ls ∧ ls ≠ [] ∧ jsIncludes ls (jsToLower tok) = true)) ∧
    (∀ tok, stringValid a st.params = some tok →
      parseArgStep a st = .ok { st with args := setArg st.args a.name (Value.str tok),
                                        params := st.params.tail }) ∧
    (a.literals = none → ∀ tok, stringValid a st.params ≠ some tok) := by
  refine ⟨?_, ?_, ?_⟩
  · intro tok
    cases hl : a.literals with
    | none =>
      cases hp : st.params with
      | nil => simp [stringValid, hl, hp]
      | cons t rest => simp [stringValid, hl, hp]
    | some ls =>
      cases hp : st.params with
      | nil => simp [stringValid, hl, hp]
      | cons t rest =>
        simp only [stringValid, hl, hp, List.head?_cons]
        by_cases h1 : ls.length ≠ 0 ∧ t ≠ ""
        · rw [if_pos h1]
          by_cases h2 : jsIncludes ls (jsToLower t) = true
          · rw [if_pos h2]
            constructor
            · intro he
              rw [Option.some.injEq] at he
              subst he
              exact ⟨rfl, h1.2, ls, rfl, by simpa using h1.1, h2⟩
            · rintro ⟨he, -, ls2, hls2, -, -⟩
              rw [Option.some.injEq] at he
              rw [he]
          · rw [if_neg h2]
            constructor
            · intro he
              exact absurd he (by simp)
            · rintro ⟨he, -, ls2, hls2, -, hinc⟩
              rw [Option.some.injEq] at he hls2
              subst he
              subst hls2
              exact absurd hinc h2
        · rw [if_neg h1]
          constructor
          · intro he
            exact absurd he (by simp)
          · rintro ⟨he, hne, ls2, hls2, hls2ne, -⟩
            rw [Option.some.injEq] at he hls2
            subst he
            subst hls2
            exact absurd ⟨by simpa using hls2ne, hne⟩ h1
  · intro tok hsv
    simp [parseArgStep, ht, stringStep, hsv]
  · intro hl tok
    cases hp : st.params with
    | nil => simp [stringValid, hl, hp]
    | cons t rest => simp [stringValid, hl, hp]

/-- Witness for C8 (amended): a concrete string entry with allow-list
`["add"]` and token `"Add"`. -/
theorem C8_string_capture_witness :
    argW8.type? = some ArgType.string ∧
    ((∀ tok, stringValid argW8 stW8.params = some tok ↔
      (stW8.params.head? = some tok ∧ tok ≠ "" ∧
        ∃ ls, argW8.literals = some ls ∧ ls ≠ [] ∧ jsIncludes ls (jsToLower tok) = true)) ∧
    (∀ tok, stringValid argW8 stW8.params = some tok →
      parseArgStep argW8 stW8 = .ok { stW8 with
        args := setArg stW8.args argW8.name (Value.str tok),
        params := stW8.params.tail }) ∧
    (argW8.literals = none → ∀ tok, stringValid argW8 stW8.params ≠ some tok)) :=
  ⟨rfl, C8_string_capture argW8 stW8 rfl⟩

/-! ## C9 (amended): truthy defaults -/

/-- A truthy configured default is applied without consuming the token. -/
theorem applyDefaultOrFail_truthy (a : Argument) (st : PState) (v : Value)
    (hd : a.defaultValue = some v) (hv : v.truthy = true) :
    applyDefaultOrFail a st = { st with args := setArg st.args a.name v } := by
  simp [applyDefaultOrFail, hd, hv]

/-- Claim C9 (amended): for a number, boolean or string entry whose
configured default is TRUTHY (not `false`, `0`, NaN or `""`), an invalid
next token records the default under the entry's name without consuming the
token, and the parse loop continues with the remaining entries. -/
theorem C9_truthy_default_applied (a : Argument) (st : PState) (v : Value)
    (hd : a.defaultValue = some v) (hv : v.truthy = true)
    (hbrk : st.missingRequiredArg = false)
    (hinv : (a.type? = some ArgType.number ∧ numTruthy (toNumber st.params.head?) = false) ∨
            (a.type? = some ArgType.boolean ∧ boolValid st.params = false) ∨
            (a.type? = some ArgType.string ∧ stringValid a st.params = none)) :
    parseArgStep a st = .ok { st with args := setArg st.args a.name v } ∧
    ∀ rest, parseLoop (a :: rest) st =
      parseLoop rest { st with args := setArg st.args a.name v } := by
  have hstep : parseArgStep a st = .ok { st with args := setArg st.args a.name v } := by
    rcases hinv with ⟨ht, hn⟩ | ⟨ht, hb⟩ | ⟨ht, hs⟩
    · simp [parseArgStep, ht, numberStep, hn, applyDefaultOrFail_truthy a st v hd hv]
    · cases hp : st.params with
      | nil =>
        simp [parseArgStep, ht, booleanStep, hp,
          applyDefaultOrFail_truthy a st v hd hv]
      | cons t rest =>
        have hbt : jsIncludes boolLits t = false := by
          simpa [boolValid, hp] using hb
        simp [parseArgStep, ht, booleanStep, hp, hbt,
          applyDefaultOrFail_truthy a st v hd hv]
    · simp [parseArgStep, ht, stringStep, hs, applyDefaultOrFail_truthy a st v hd hv]
  refine ⟨hstep, ?_⟩
  intro rest
  simp only [parseLoop, hstep, hbrk, if_false, Bool.false_eq_true]

/-- Witness for C9 (amended): a number entry with truthy default `"dflt"`
and the invalid token `"zero"`. -/
theorem C9_truthy_default_applied_witness :
    argW9.defaultValue = some (Value.str "dflt") ∧
    (Value.str "dflt").truthy = true ∧
    stW9.missingRequiredArg = false ∧
    numTruthy (toNumber stW9.params.head?) = false ∧
    (parseArgStep argW9 stW9 = .ok { stW9 with
        args := setArg stW9.args argW9.name (Value.str "dflt") } ∧
      ∀ rest, parseLoop (argW9 :: rest) stW9 =
        parseLoop rest { stW9 with
          args := setArg stW9.args argW9.name (Value.str "dflt") }) := by
  refine ⟨rfl, by decide, rfl, by decide, ?_⟩
  exact C9_truthy_default_applied argW9 stW9 (Value.str "dflt") rfl (by decide) rfl
    (Or.inl ⟨rfl, by decide⟩)

/-! ## C6: command registration -/

/-- Claim C6: `createCommand` raises a duplicate error iff a command with
the same case-insensitive name already exists (given the registry invariant
that all keys are lowercase, which every insertion maintains); otherwise it
stores the normalized definition keyed (and named) by the lowercase name,
with defaults aliases=[], dm=false, empty permission lists and an
always-true permission-level predicate. -/
theorem C6_createCommand (commands : List (String × Command)) (name : String)
    (options : CommandOptions)
    (hinv : ∀ p ∈ commands, jsToLower p.1 = p.1) :
    ((∃ e, createCommand commands name options = .error e) ↔
      ∃ p ∈ commands, jsToLower p.1 = jsToLower name) ∧
    ((¬ ∃ p ∈ commands, jsToLower p.1 = jsToLower name) →
      createCommand commands name options =
        .ok (mapSet commands (jsToLower name) (constructCommand name options))) ∧
    mapGet (mapSet commands (jsToLower name) (constructCommand name options))
      (jsToLower name) = some (constructCommand name options) ∧
    (constructCommand name options).name = jsToLower name ∧
    (options.aliases = none → (constructCommand name options).aliases = []) ∧
    (options.dm = none → (constructCommand name options).dm = false) ∧
    (options.requiredChannelPermissions = none →
      (constructCommand name options).requiredChannelPermissions = []) ∧
    (options.requiredServerPermissions = none →
      (constructCommand name options).requiredServerPermissions = []) ∧
    (options.botChannelPermissions = none →
      (constructCommand name options).botChannelPermissions = []) ∧
    (options.botServerPermissions = none →
      (constructCommand name options).botServerPermissions = []) ∧
    (options.permissionLevel = none →
      ∀ m, (constructCommand name options).permissionLevel m = true) := by
  have hiff : (mapGet commands (jsToLower name)).isSome = true ↔
      ∃ p ∈ commands, jsToLower p.1 = jsToLower name := by
    rw [mapGet_isSome_iff]
    constructor
    · rintro ⟨p, hp, hk⟩
      exact ⟨p, hp, (hinv p hp).trans hk⟩
    · rintro ⟨p, hp, hk⟩
      exact ⟨p, hp, (hinv p hp).symm.trans hk⟩
  refine ⟨?_, ?_, mapGet_mapSet_self _ _ _, rfl, ?_, ?_, ?_, ?_, ?_, ?_, ?_⟩
  · constructor
    · rintro ⟨e, he⟩
      by_cases h : (mapGet commands (jsToLower name)).isSome = true
      · exact hiff.mp h
      · unfold createCommand at he
        simp [h] at he
    · intro hex
      refine ⟨"Command with the name " ++ name ++ " already exists.", ?_⟩
      unfold createCommand
      simp [hiff.mpr hex]
  · intro hex
    have h : (mapGet commands (jsToLower name)).isSome = false := by
      cases hx : (mapGet commands (jsToLower name)).isSome with
      | false => rfl
      | true => exact absurd (hiff.mp hx) hex
    unfold createCommand
    simp [h]
  · intro h
    simp [constructCommand, h, Command.aliases]
  · intro h
    simp [constructCommand, h, Command.dm]
  · intro h
    simp [constructCommand, h, Command.requiredChannelPermissions]
  · intro h
    simp [constructCommand, h, Command.requiredServerPermissions]
  · intro h
    simp [constructCommand, h, Command.botChannelPermissions]
  · intro h
    simp [constructCommand, h, Command.botServerPermissions]
  · intro h m
    simp [constructCommand, h, Command.permissionLevel, defaultPermRequired]

/-- Witness for C6: registering `PING` over a registry holding `ping` is
the duplicate case (names differing only by case), and the error indeed
fires on the concrete input. -/
theorem C6_createCommand_witness :
    (∀ p ∈ registryW, jsToLower p.1 = p.1) ∧
    ((∃ e, createCommand registryW "PING" optsW = .error e) ↔
      ∃ p ∈ registryW, jsToLower p.1 = jsToLower "PING") ∧
    createCommand registryW "PING" optsW =
      .error "Command with the name PING already exists." := by
  refine ⟨?_, ?_, rfl⟩
  · intro p hp
    simp only [registryW, List.mem_singleton] at hp
    subst hp
    rfl
  · exact (C6_createCommand registryW "PING" optsW (by
      intro p hp
      simp only [registryW, List.mem_singleton] at hp
      subst hp
      rfl)).1

/-! ## C2: the permission gate -/

theorem permCheck_snd (t n : String) (req : List PermFlag)
    (perms : Option (List PermFlag)) :
    (permCheck t n req perms).2 = catPasses (t, req, perms) := by
  unfold permCheck catPasses catMissing
  by_cases h1 : req.isEmpty
  · simp [h1]
  · by_cases h2 : (permMissing req perms).isEmpty
    · simp [h1, h2]
    · simp [h1, h2]

theorem eventTyp_queries (t : String) (req : List PermFlag)
    (perms : Option (List PermFlag)) :
    ∀ e ∈ permQueries t req perms, eventTyp e = t := by
  intro e he
  cases perms with
  | none => simp [permQueries] at he
  | some ps =>
    simp only [permQueries, List.mem_map] at he
    obtain ⟨p, -, rfl⟩ := he
    rfl

theorem permCheck_events_typ (t n : String) (req : List PermFlag)
    (perms : Option (List PermFlag)) :
    ∀ e ∈ (permCheck t n req perms).1, eventTyp e = t := by
  intro e he
  unfold permCheck at he
  by_cases h1 : req.isEmpty
  · rw [if_pos h1] at he
    simp at he
  · rw [if_neg h1] at he
    by_cases h2 : (permMissing req perms).isEmpty
    · rw [if_pos h2] at he
      exact eventTyp_queries t req perms e he
    · rw [if_neg h2] at he
      rcases List.mem_append.mp he with h | h
      · exact eventTyp_queries t req perms e h
      · simp only [List.mem_singleton] at h
        subst h
        rfl

theorem filter_isNotif_queries (t : String) (req : List PermFlag)
    (perms : Option (List PermFlag)) :
    (permQueries t req perms).filter isNotif = [] := by
  cases perms with
  | none => rfl
  | some ps =>
    unfold permQueries
    induction req with
    | nil => rfl
    | cons p rest ih =>
      simp only [List.map_cons]
      rw [List.filter_cons_of_neg (by simp [isNotif])]
      exact ih

theorem permCheck_filter_notif_pass (t n : String) (req : List PermFlag)
    (perms : Option (List PermFlag)) (h : catPasses (t, req, perms) = true) :
    (permCheck t n req perms).1.filter isNotif = [] := by
  unfold permCheck
  by_cases h1 : req.isEmpty
  · rw [if_pos h1]
    rfl
  · have h2 : (permMissing req perms).isEmpty = true := by
      unfold catPasses catMissing at h
      rcases Bool.or_eq_true_iff.mp h with hx | hx
      · exact absurd hx h1
      · exact hx
    rw [if_neg h1, if_pos h2]
    exact filter_isNotif_queries t req perms

theorem permCheck_filter_notif_fail (t n : String) (req : List PermFlag)
    (perms : Option (List PermFlag)) (h : catPasses (t, req, perms) = false) :
    (permCheck t n req perms).1.filter isNotif =
      [Event.missingPerm t n (catMissing (t, req, perms))] := by
  have h' : req.isEmpty = false ∧ (permMissing req perms).isEmpty = false := by
    unfold catPasses catMissing at h
    exact Bool.or_eq_false_iff.mp h
  unfold permCheck
  rw [if_neg (by simp [h'.1]), if_neg (by simp [h'.2])]
  rw [List.filter_append, filter_isNotif_queries t req perms, List.nil_append]
  simp [isNotif, catMissing]

theorem gateRun_all_pass (n : String) (f : Bool) (cats : List GateCat)
    (h : ∀ c ∈ cats, catPasses c = true) : (gateRun n f cats).1 = f := by
  induction cats with
  | nil => rfl
  | cons c rest ih =>
    obtain ⟨t, req, perms⟩ := c
    have h2 : (permCheck t n req perms).2 = true := by
      rw [permCheck_snd]
      exact h _ (List.mem_cons_self _ _)
    simp only [gateRun, h2, if_true]
    exact ih fun c hc => h c (List.mem_cons_of_mem _ hc)

theorem gateRun_first_fail (n : String) (f : Bool) (pre : List GateCat)
    (c : GateCat) (post : List GateCat)
    (hpre : ∀ c0 ∈ pre, catPasses c0 = true) (hc : catPasses c = false) :
    (gateRun n f (pre ++ c :: post)).1 = false ∧
    (gateRun n f (pre ++ c :: post)).2.filter isNotif =
      [Event.missingPerm c.1 n (catMissing c)] ∧
    ∀ e ∈ (gateRun n f (pre ++ c :: post)).2,
      eventTyp e ∈ pre.map (fun x => x.1) ++ [c.1] := by
  induction pre with
  | nil =>
    obtain ⟨t, req, perms⟩ := c
    have h2 : (permCheck t n req perms).2 = false := by
      rw [permCheck_snd]
      exact hc
    simp only [List.nil_append, gateRun, h2, Bool.false_eq_true, if_false]
    refine ⟨by simp, permCheck_filter_notif_fail t n req perms hc, ?_⟩
    intro e he
    have := permCheck_events_typ t n req perms e he
    simp [this]
  | cons c0 pre ih =>
    obtain ⟨t0, req0, perms0⟩ := c0
    have hp0 : catPasses (t0, req0, perms0) = true :=
      hpre _ (List.mem_cons_self _ _)
    have h2 : (permCheck t0 n req0 perms0).2 = true := by
      rw [permCheck_snd]
      exact hp0
    have ih' := ih fun c1 hc1 => hpre c1 (List.mem_cons_of_mem _ hc1)
    simp only [List.cons_append, gateRun, h2, if_true]
    refine ⟨ih'.1, ?_, ?_⟩
    · rw [List.filter_append, permCheck_filter_notif_pass t0 n req0 perms0 hp0,
        List.nil_append]
      exact ih'.2.1
    · intro e he
      rcases List.mem_append.mp he with h | h
      · have := permCheck_events_typ t0 n req0 perms0 e h
        simp [this]
      · have hmem := ih'.2.2 e h
        simp only [List.map_cons, List.cons_append]
        exact List.mem_cons_of_mem _ hmem

theorem gateRun_four (n : String) (f : Bool) (c1 c2 c3 c4 : GateCat) :
    (Except.ok (gateRun n f [c1, c2, c3, c4]) : Except JsErr (Bool × List Event)) =
      (if (permCheck c1.1 n c1.2.1 c1.2.2).2 then
        if (permCheck c2.1 n c2.2.1 c2.2.2).2 then
          if (permCheck c3.1 n c3.2.1 c3.2.2).2 then
            if (permCheck c4.1 n c4.2.1 c4.2.2).2 then
              .ok (f, (permCheck c1.1 n c1.2.1 c1.2.2).1 ++ (permCheck c2.1 n c2.2.1 c2.2.2).1 ++
                (permCheck c3.1 n c3.2.1 c3.2.2).1 ++ (permCheck c4.1 n c4.2.1 c4.2.2).1)
            else
              .ok (false, (permCheck c1.1 n c1.2.1 c1.2.2).1 ++ (permCheck c2.1 n c2.2.1 c2.2.2).1 ++
                (permCheck c3.1 n c3.2.1 c3.2.2).1 ++ (permCheck c4.1 n c4.2.1 c4.2.2).1)
          else
            .ok (false, (permCheck c1.1 n c1.2.1 c1.2.2).1 ++ (permCheck c2.1 n c2.2.1 c2.2.2).1 ++
              (permCheck c3.1 n c3.2.1 c3.2.2).1)
        else
          .ok (false, (permCheck c1.1 n c1.2.1 c1.2.2).1 ++ (permCheck c2.1 n c2.2.1 c2.2.2).1)
      else
        .ok (false, (permCheck c1.1 n c1.2.1 c1.2.2).1)) := by
  obtain ⟨t1, q1, p1⟩ := c1
  obtain ⟨t2, q2, p2⟩ := c2
  obtain ⟨t3, q3, p3⟩ := c3
  obtain ⟨t4, q4, p4⟩ := c4
  cases hb1 : (permCheck t1 n q1 p1).2
  · simp [gateRun, hb1]
  · cases hb2 : (permCheck t2 n q2 p2).2
    · simp [gateRun, hb1, hb2]
    · cases hb3 : (permCheck t3 n q3 p3).2
      · simp [gateRun, hb1, hb2, hb3, List.append_assoc]
      · cases hb4 : (permCheck t4 n q4 p4).2
        · simp [gateRun, hb1, hb2, hb3, hb4, List.append_assoc]
        · simp [gateRun, hb1, hb2, hb3, hb4, List.append_assoc]

theorem commandAllowed_eq_gateRun (client : ClientState) (message : Message)
    (command : Command) (g : Guild) (botMember : Member)
    (hch : message.channel.guildText = true) (hg : message.guild = some g)
    (hme : g.me = some botMember) :
    commandAllowed client message command =
      .ok (gateRun command.name (command.permissionLevel message)
        (gateCats message command botMember)) := by
  unfold gateCats
  rw [gateRun_four]
  unfold commandAllowed
  rw [hg]
  simp only [hch, hme, Bool.true_eq_false, if_false]

/-- Claim C2: for a guild message with a resolvable bot member, the
permission gate is the ordered short-circuit run of the four categories
user-channel, user-server, bot-channel, bot-server (first conjunct); an
empty requirement list passes vacuously, performing no queries (second
conjunct); when all categories pass, the gate's result is the command's
permission-level predicate (third conjunct); and on the first failing
category the gate returns failure having emitted exactly one notification
(naming the failing category's key, the command and the missing flags) and
no query of any later category (fourth conjunct). -/
theorem C2_permission_gate (client : ClientState) (message : Message)
    (command : Command) (g : Guild) (botMember : Member)
    (hch : message.channel.guildText = true) (hg : message.guild = some g)
    (hme : g.me = some botMember) :
    commandAllowed client message command =
      .ok (gateRun command.name (command.permissionLevel message)
        (gateCats message command botMember)) ∧
    (∀ typ n perms, permCheck typ n [] perms = ([], true)) ∧
    ((∀ c ∈ gateCats message command botMember, catPasses c = true) →
      (gateRun command.name (command.permissionLevel message)
        (gateCats message command botMember)).1 = command.permissionLevel message) ∧
    (∀ pre c post, gateCats message command botMember = pre ++ c :: post →
      (∀ c0 ∈ pre, catPasses c0 = true) → catPasses c = false →
      (gateRun command.name (command.permissionLevel message)
        (gateCats message command botMember)).1 = false ∧
      (gateRun command.name (command.permissionLevel message)
        (gateCats message command botMember)).2.filter isNotif =
        [Event.missingPerm c.1 command.name (catMissing c)] ∧
      ∀ e ∈ (gateRun command.name (command.permissionLevel message)
        (gateCats message command botMember)).2,
        eventTyp e ∈ pre.map (fun x => x.1) ++ [c.1]) := by
  refine ⟨commandAllowed_eq_gateRun client message command g botMember hch hg hme,
    fun typ n perms => rfl,
    gateRun_all_pass command.name (command.permissionLevel message) _, ?_⟩
  intro pre c post heq hpre hc
  rw [heq]
  exact gateRun_first_fail command.name (command.permissionLevel message) pre c post
    hpre hc

/-- Witness for C2: a concrete guild message and a command requiring the
user-channel flag `"A"` that the member lacks. -/
theorem C2_permission_gate_witness :
    msgC2.channel.guildText = true ∧
    msgC2.guild = some guildCached ∧
    guildCached.me = some memEmpty ∧
    commandAllowed clC1 msgC2 cmdC2 =
      .ok (gateRun cmdC2.name (cmdC2.permissionLevel msgC2)
        (gateCats msgC2 cmdC2 memEmpty)) :=
  ⟨rfl, rfl, rfl,
    (C2_permission_gate clC1 msgC2 cmdC2 guildCached memEmpty rfl rfl rfl).1⟩

/-! ## C1 (amended) and C10: the dispatcher -/

theorem guildFetchedMessage_cached (message : Message) (g : Guild) (bm : Member)
    (hg : message.guild = some g) (hme : g.me = some bm) :
    guildFetchedMessage message g = message := by
  have hfg : fetchedGuild g = g := by
    unfold fetchedGuild
    rw [hme]
  obtain ⟨ab, content, ch, gu, mem⟩ := message
  dsimp only at hg
  subst hg
  unfold guildFetchedMessage
  rw [hfg]

/-- Claim C1 (amended): for a guild-dispatched message whose resolved
command's argument schema contains NO entry of type subcommand anywhere
(the source searches the whole schema with `find`, not only the first
entry), once the permission gate passes and argument parsing succeeds the
dispatcher invokes the top-level command's execute handler with the
parsed-argument map and terminates, performing no subcommand resolution. -/
theorem C1_top_level_execute (client : ClientState) (message : Message)
    (command : Command) (g : Guild) (bm : Member) (gateEvs parseEvs : List Event)
    (args : ArgsMap)
    (hbot : message.authorBot = false)
    (hment : ∀ s ∈ botMentions client, jsStartsWith message.content s = false)
    (hg : message.guild = some g) (hme : g.me = some bm)
    (hlookup : mapGet client.commands ((messageTokens client message).headD "") =
      some command)
    (hallow : commandAllowed client message command = .ok (true, gateEvs))
    (hparse : parseArguments command (messageTokens client message).tail =
      .ok (some args, parseEvs))
    (hnosub : command.arguments.find?
      (fun a => decide (a.type? = some ArgType.subcommand)) = none) :
    commandHandler client message =
      .ok (gateEvs ++ parseEvs ++ [Event.executed command.name args]) := by
  have hinc : jsIncludes (botMentions client) message.content = false :=
    jsIncludes_eq_false_of_no_start _ _ hment
  have hmsg1 : guildFetchedMessage message g = message :=
    guildFetchedMessage_cached message g bm hg hme
  unfold commandHandler
  simp only [hbot, Bool.false_eq_true, if_false, hinc, hlookup, hg, hmsg1, hallow,
    Bool.true_eq_false, hparse, hnosub]

/-- Witness for C1 (amended): the command `p` with the single boolean entry
`flag` and the message `"bot p on"`. -/
theorem C1_top_level_execute_witness :
    msgP.authorBot = false ∧
    commandAllowed clP msgP cmdP = .ok (true, []) ∧
    parseArguments cmdP (messageTokens clP msgP).tail =
      .ok (some [("flag", Value.boolV true)], []) ∧
    commandHandler clP msgP =
      .ok ([] ++ [] ++ [Event.executed cmdP.name [("flag", Value.boolV true)]]) :=
  ⟨rfl, rfl, rfl,
    C1_top_level_execute clP msgP cmdP guildCached memEmpty [] []
      [("flag", Value.boolV true)] rfl (by decide) rfl rfl rfl rfl rfl rfl⟩

theorem commandAllowed_content_congr (client : ClientState) (ab : Bool)
    (c1 c2 : String) (ch : Channel) (g : Guild) (bm : Member)
    (mem : Option Member) (cmd : Command)
    (hch : ch.guildText = true) (hme : g.me = some bm)
    (hpl : cmd.permissionLevel ⟨ab, c1, ch, some g, mem⟩ =
      cmd.permissionLevel ⟨ab, c2, ch, some g, mem⟩) :
    commandAllowed client ⟨ab, c1, ch, some g, mem⟩ cmd =
      commandAllowed client ⟨ab, c2, ch, some g, mem⟩ cmd := by
  rw [commandAllowed_eq_gateRun client ⟨ab, c1, ch, some g, mem⟩ cmd g bm hch rfl hme,
    commandAllowed_eq_gateRun client ⟨ab, c2, ch, some g, mem⟩ cmd g bm hch rfl hme,
    hpl]
  rfl

/-- Claim C10: the guild dispatch path never verifies that the message
content starts with the effective prefix — the first prefix-length
characters are removed unconditionally. Formally: two guild messages that
differ only in those removed characters (their contents agree after
dropping `prefix.length` characters, neither starts with a bot mention, and
the command's permission-level predicate does not tell them apart) are
dispatched identically, so a message whose leading characters are NOT the
prefix proceeds to dispatch exactly like the properly prefixed one. -/
theorem C10_no_prefix_verification (client : ClientState) (m : Message)
    (c1 c2 : String) (g : Guild) (bm : Member)
    (hbot : m.authorBot = false)
    (hch : m.channel.guildText = true)
    (hg : m.guild = some g) (hme : g.me = some bm)
    (hm1 : ∀ s ∈ botMentions client, jsStartsWith c1 s = false)
    (hm2 : ∀ s ∈ botMentions client, jsStartsWith c2 s = false)
    (hdrop : jsDropChars c1 (jsLen client.pfx) = jsDropChars c2 (jsLen client.pfx))
    (hpl : ∀ cmd : Command,
      mapGet client.commands
        ((splitOnSpace (jsDropChars c1 (jsLen client.pfx))).headD "") = some cmd →
      cmd.permissionLevel { m with content := c1 } =
        cmd.permissionLevel { m with content := c2 }) :
    commandHandler client { m with content := c1 } =
      commandHandler client { m with content := c2 } := by
  obtain ⟨ab, c0, ch, gu, mem⟩ := m
  dsimp only at hbot hch hg hpl ⊢
  subst hbot
  subst hg
  have hinc1 : jsIncludes (botMentions client) c1 = false :=
    jsIncludes_eq_false_of_no_start _ _ hm1
  have hinc2 : jsIncludes (botMentions client) c2 = false :=
    jsIncludes_eq_false_of_no_start _ _ hm2
  have ht1 : messageTokens client ⟨false, c1, ch, some g, mem⟩ =
      splitOnSpace (jsDropChars c1 (jsLen client.pfx)) :=
    messageTokens_no_mention client ⟨false, c1, ch, some g, mem⟩ hm1
  have ht2 : messageTokens client ⟨false, c2, ch, some g, mem⟩ =
      splitOnSpace (jsDropChars c2 (jsLen client.pfx)) :=
    messageTokens_no_mention client ⟨false, c2, ch, some g, mem⟩ hm2
  rw [hdrop] at hpl
  unfold commandHandler
  simp only [Bool.false_eq_true, if_false, hinc1, hinc2, ht1, ht2, hdrop]
  cases hcmd : mapGet client.commands
      ((splitOnSpace (jsDropChars c2 (jsLen client.pfx))).headD "") with
  | none => rfl
  | some cmd =>
    have hfm1 : guildFetchedMessage ⟨false, c1, ch, some g, mem⟩ g =
        ⟨false, c1, ch, some g, mem⟩ :=
      guildFetchedMessage_cached _ g bm rfl hme
    have hfm2 : guildFetchedMessage ⟨false, c2, ch, some g, mem⟩ g =
        ⟨false, c2, ch, some g, mem⟩ :=
      guildFetchedMessage_cached _ g bm rfl hme
    have hca : commandAllowed client ⟨false, c1, ch, some g, mem⟩ cmd =
        commandAllowed client ⟨false, c2, ch, some g, mem⟩ cmd :=
      commandAllowed_content_congr client false c1 c2 ch g bm mem cmd hch hme
        (hpl cmd hcmd)
    simp only [hfm1, hfm2, hca]

/-- Witness for C10: the contents `"bot ping"` (correctly prefixed) and
`"XYZ ping"` (wrong leading characters, same length) dispatch identically,
and the wrongly prefixed one does execute the `ping` command. -/
theorem C10_no_prefix_verification_witness :
    commandHandler clPing { msgBase with content := "bot ping" } =
      commandHandler clPing { msgBase with content := "XYZ ping" } ∧
    commandHandler clPing { msgBase with content := "XYZ ping" } =
      .ok [Event.executed "ping" []] := by
  refine ⟨?_, rfl⟩
  exact C10_no_prefix_verification clPing msgBase "bot ping" "XYZ ping"
    guildCached memEmpty rfl rfl rfl rfl (by decide) (by decide) (by decide)
    (fun cmd hcmd => by
      have h2 : some cmdPing = some cmd := hcmd
      cases h2
      rfl)

end Sabr
